import Mathlib

/-!
Verification development for the sticky-note canvas application
(client `public/app.js` and proxy `server.js`).

The client keeps a dirty ledger of unsaved mutations in two JavaScript
`Map`s (`state.dirtyPositions`, `state.dirtyContent`) and flushes them to
the server in batches (`flushAllDirty`).  The server proxies an Airtable
table, chunking batch writes into groups of ten
(`handleBatchUpdate`), retrying rate-limited requests
(`airtableRequestWithRetry`), gating unlock/delete on a password, and
stripping locked note content from the list endpoint.

JavaScript `Map`s are modelled as insertion-ordered association lists;
`Map.get`, `Map.set`, `Map.delete` become `alistGet`, `alistSet`,
`alistErase`.
-/

/-- `Map.get`: first value bound to the key, if any. -/
def alistGet {α : Type} : List (String × α) → String → Option α
  | [], _ => none
  | (k, v) :: rest, key => if k = key then some v else alistGet rest key

/-- `Map.set`: replace an existing binding in place, otherwise append. -/
def alistSet {α : Type} : List (String × α) → String → α → List (String × α)
  | [], key, v => [(key, v)]
  | (k, w) :: rest, key, v =>
    if k = key then (key, v) :: rest else (k, w) :: alistSet rest key v

/-- `Map.delete`: remove the binding for the key. -/
def alistErase {α : Type} : List (String × α) → String → List (String × α)
  | [], _ => []
  | (k, w) :: rest, key =>
    if k = key then alistErase rest key else (k, w) :: alistErase rest key

theorem alistGet_set_self {α : Type} (l : List (String × α)) (k : String) (v : α) :
    alistGet (alistSet l k v) k = some v := by
  induction l with
  | nil => simp [alistGet, alistSet]
  | cons p rest ih =>
    obtain ⟨k', v'⟩ := p
    by_cases h : k' = k
    · simp [alistGet, alistSet, h]
    · simp [alistGet, alistSet, h, ih]

theorem alistGet_set_ne {α : Type} (l : List (String × α)) (k k' : String) (v : α)
    (h : k' ≠ k) : alistGet (alistSet l k' v) k = alistGet l k := by
  induction l with
  | nil => simp [alistGet, alistSet, h]
  | cons p rest ih =>
    obtain ⟨a, b⟩ := p
    by_cases h2 : a = k'
    · simp [alistGet, alistSet, h2, h]
    · simp [alistGet, alistSet, h2, ih]

theorem alistGet_erase_self {α : Type} (l : List (String × α)) (k : String) :
    alistGet (alistErase l k) k = none := by
  induction l with
  | nil => simp [alistGet, alistErase]
  | cons p rest ih =>
    obtain ⟨k', v'⟩ := p
    by_cases h : k' = k
    · simp [alistErase, h, ih]
    · simp [alistGet, alistErase, h, ih]

theorem alistGet_erase_ne {α : Type} (l : List (String × α)) (k k' : String)
    (h : k' ≠ k) : alistGet (alistErase l k') k = alistGet l k := by
  induction l with
  | nil => simp [alistErase]
  | cons p rest ih =>
    obtain ⟨a, b⟩ := p
    by_cases h2 : a = k'
    · simp [alistGet, alistErase, h2, h, ih]
    · simp [alistGet, alistErase, h2, ih]

/-! ## Client data model (`public/app.js`)

A dirty position entry is a partial record of the four numeric fields a
drag or resize can produce (`{x, y, w, h}`); absent fields are `none`,
matching `undefined` in JavaScript.  A dirty content entry maps Airtable
field names to their latest unsaved string values. -/

/-- One entry of `state.dirtyPositions`. -/
structure Pos where
  x : Option Int
  y : Option Int
  w : Option Int
  h : Option Int
deriving DecidableEq, Repr

/-- One entry of `state.dirtyContent`: field name to latest value. -/
abbrev ContentFields := List (String × String)

/-- The dirty ledger: `state.dirtyPositions` and `state.dirtyContent`. -/
structure DirtyMaps where
  positions : List (String × Pos)
  content : List (String × ContentFields)
deriving DecidableEq, Repr

/-- The client mutations that touch the dirty ledger: the drag `onUp`
handler, the resize `onUp` handler, `debounceSaveContent`, and the
delete handler in `setupNoteDelete`. -/
inductive Edit
  | dragEnd (id : String) (x y : Int)
  | resizeEnd (id : String) (w h : Int)
  | editContent (id : String) (fields : ContentFields)
  | deleteNote (id : String)
deriving DecidableEq, Repr

/-- Effect of one edit on the dirty ledger, translated from the
corresponding handlers in `public/app.js`. -/
def applyEdit (m : DirtyMaps) : Edit → DirtyMaps
  | .dragEnd id x y =>
    let existing := (alistGet m.positions id).getD ⟨none, none, none, none⟩
    let updated := { existing with x := some x, y := some y }
    { m with positions := alistSet m.positions id updated }
  | .resizeEnd id w h =>
    let existing := (alistGet m.positions id).getD ⟨none, none, none, none⟩
    let updated := { existing with w := some w, h := some h }
    { m with positions := alistSet m.positions id updated }
  | .editContent id fields =>
    let cur := (alistGet m.content id).getD []
    let merged := fields.foldl (fun acc kv => alistSet acc kv.1 kv.2) cur
    { m with content := alistSet m.content id merged }
  | .deleteNote id =>
    { positions := alistErase m.positions id
      content := alistErase m.content id }

/-- A sequence of edits applied in order. -/
def applyEdits (m : DirtyMaps) (edits : List Edit) : DirtyMaps :=
  edits.foldl applyEdit m

/-! ## The flush engine (`flushAllDirty` and friends) -/

/-- `SYNC_DEBOUNCE_MS` from `public/app.js`. -/
def SYNC_DEBOUNCE_MS : Nat := 30000

/-- `SAVE_TIMEOUT_MS` from `public/app.js`: safety timeout for hung save
requests. -/
def SAVE_TIMEOUT_MS : Nat := 30000

/-- `MAX_SYNC_RETRIES` from `public/app.js`: stop auto-retrying after this
many consecutive failures. -/
def MAX_SYNC_RETRIES : Nat := 3

/-- The observable mutable client state the sync engine manipulates:
the dirty ledger, the `saving` busy flag and the
`consecutiveSyncFailures` counter. -/
structure ClientState where
  maps : DirtyMaps
  saving : Bool
  failures : Nat
deriving DecidableEq, Repr

/-- Status-bar messages `flushAllDirty` and the timeout handler can show
(`showStatus` calls), one constructor per call site. -/
inductive Status
  | synced
  | retrying (failures : Nat)
  | manualRetry
  | partialRetrying (failures : Nat)
  | partialManual
  | timeoutRetrying (failures : Nat)
  | timeoutManual
deriving DecidableEq, Repr

/-- Outcome of the one batch request a flush sends: either the `api` call
threw, or it returned `result` with the set of succeeded record ids and
a (possibly empty) `errors` array. -/
inductive BatchOutcome
  | threw
  | ok (savedIds : List String) (hasErrors : Bool)
deriving DecidableEq, Repr

/-- Post-state of one `flushAllDirty` invocation, plus what it did:
whether a batch request was sent, whether `scheduleBatchSync` restarted
the sync timer, whether `persistDirtyState` ran, and the final status
message. -/
structure FlushResult where
  maps : DirtyMaps
  saving : Bool
  failures : Nat
  sentRequest : Bool
  rescheduled : Bool
  persisted : Bool
  status : Option Status
deriving DecidableEq, Repr

/-- The per-field cleanliness test in the reconciliation loop: every
field that was sent still has its sent value in the current entry
(`currentFields[key] !== sentFields[key]` over `Object.keys(sentFields)`). -/
def contentClean (snt cur : ContentFields) : Bool :=
  snt.all fun kv => alistGet cur kv.1 == some kv.2

/-- One iteration of the reconciliation loop of `flushAllDirty` for a
single succeeded id: delete the position entry only if present in both
the snapshot and the current ledger with all four fields equal; delete
the content entry only if present in both and every sent field is
unchanged. -/
def reconcileOne (sentP : List (String × Pos)) (sentC : List (String × ContentFields))
    (maps : DirtyMaps) (id : String) : DirtyMaps :=
  let pos' :=
    match alistGet maps.positions id, alistGet sentP id with
    | some cur, some snt =>
      if cur.x = snt.x ∧ cur.y = snt.y ∧ cur.w = snt.w ∧ cur.h = snt.h then
        alistErase maps.positions id
      else maps.positions
    | _, _ => maps.positions
  let con' :=
    match alistGet maps.content id, alistGet sentC id with
    | some cur, some snt =>
      if contentClean snt cur then alistErase maps.content id else maps.content
    | _, _ => maps.content
  { positions := pos', content := con' }

/-- The full reconciliation loop: fold `reconcileOne` over the succeeded
ids. -/
def reconcile (savedIds : List String) (sentP : List (String × Pos))
    (sentC : List (String × ContentFields)) (maps : DirtyMaps) : DirtyMaps :=
  savedIds.foldl (reconcileOne sentP sentC) maps

/-- `flushAllDirty` from `public/app.js`, as a function of: the client
state at entry, the edits the user makes while the request is in flight,
and the request outcome.  The snapshot sent is the ledger at entry
(`st.maps`); the current ledger at response time is
`applyEdits st.maps edits`. -/
def flushAllDirty (st : ClientState) (edits : List Edit) (outcome : BatchOutcome) :
    FlushResult :=
  if st.maps.positions = [] ∧ st.maps.content = [] then
    { maps := st.maps, saving := st.saving, failures := st.failures,
      sentRequest := false, rescheduled := false, persisted := false, status := none }
  else if st.saving then
    { maps := st.maps, saving := st.saving, failures := st.failures,
      sentRequest := false, rescheduled := true, persisted := false, status := none }
  else
    let current := applyEdits st.maps edits
    match outcome with
    | .threw =>
      { maps := current, saving := false, failures := st.failures + 1,
        sentRequest := true,
        rescheduled := decide (st.failures + 1 < MAX_SYNC_RETRIES),
        persisted := true,
        status := some (if st.failures + 1 < MAX_SYNC_RETRIES then
          .retrying (st.failures + 1) else .manualRetry) }
    | .ok savedIds hasErrors =>
      let maps' := reconcile savedIds st.maps.positions st.maps.content current
      if hasErrors then
        { maps := maps', saving := false, failures := st.failures + 1,
          sentRequest := true,
          rescheduled := decide (st.failures + 1 < MAX_SYNC_RETRIES),
          persisted := true,
          status := some (if st.failures + 1 < MAX_SYNC_RETRIES then
            .partialRetrying (st.failures + 1) else .partialManual) }
      else
        { maps := maps', saving := false, failures := 0,
          sentRequest := true, rescheduled := false, persisted := true,
          status := some .synced }

/-- Post-state of the safety-timeout handler installed by
`flushAllDirty`. -/
structure TimeoutResult where
  saving : Bool
  persisted : Bool
  failures : Nat
  rescheduled : Bool
  status : Option Status
deriving DecidableEq, Repr

/-- The `saveTimeoutTimer` callback from `flushAllDirty`: if the flush is
still marked saving, clear the flag, persist the dirty state, bump the
failure counter, and either reschedule or ask for a manual retry. -/
def saveTimeoutHandler (st : ClientState) : TimeoutResult :=
  if st.saving then
    { saving := false, persisted := true, failures := st.failures + 1,
      rescheduled := decide (st.failures + 1 < MAX_SYNC_RETRIES),
      status := some (if st.failures + 1 < MAX_SYNC_RETRIES then
        .timeoutRetrying (st.failures + 1) else .timeoutManual) }
  else
    { saving := st.saving, persisted := false, failures := st.failures,
      rescheduled := false, status := none }

/-- The drag `onUp` handler: merge the new x/y into the dirty position
entry and reset the consecutive-failure counter. -/
def onDragEnd (st : ClientState) (id : String) (x y : Int) : ClientState :=
  { maps := applyEdit st.maps (.dragEnd id x y), saving := st.saving, failures := 0 }

/-- The resize `onUp` handler: merge the new w/h into the dirty position
entry and reset the consecutive-failure counter. -/
def onResizeEnd (st : ClientState) (id : String) (w h : Int) : ClientState :=
  { maps := applyEdit st.maps (.resizeEnd id w h), saving := st.saving, failures := 0 }

/-- `debounceSaveContent` from `public/app.js`: merge the fields into the
dirty content entry and reset the consecutive-failure counter. -/
def debounceSaveContent (st : ClientState) (id : String) (fields : ContentFields) :
    ClientState :=
  { maps := applyEdit st.maps (.editContent id fields), saving := st.saving,
    failures := 0 }

/-- `saveAll` from `public/app.js` (the manual save button): reset the
consecutive-failure counter, then run a flush. -/
def saveAll (st : ClientState) (edits : List Edit) (outcome : BatchOutcome) :
    FlushResult :=
  flushAllDirty { st with failures := 0 } edits outcome

/-! ## Reconciliation lemmas -/

theorem reconcileOne_pos_get (sentP : List (String × Pos))
    (sentC : List (String × ContentFields)) (maps : DirtyMaps) (id' id : String) :
    alistGet (reconcileOne sentP sentC maps id').positions id = alistGet maps.positions id
    ∨ (alistGet (reconcileOne sentP sentC maps id').positions id = none
       ∧ id' = id
       ∧ ∃ cur snt, alistGet maps.positions id = some cur ∧ alistGet sentP id = some snt
         ∧ cur.x = snt.x ∧ cur.y = snt.y ∧ cur.w = snt.w ∧ cur.h = snt.h) := by
  by_cases hid : id' = id
  · subst hid
    cases hc : alistGet maps.positions id' with
    | none => left; simp [reconcileOne, hc]
    | some cur =>
      cases hsnt : alistGet sentP id' with
      | none => left; simp [reconcileOne, hc, hsnt]
      | some snt =>
        by_cases heq : cur.x = snt.x ∧ cur.y = snt.y ∧ cur.w = snt.w ∧ cur.h = snt.h
        · right
          refine ⟨?_, rfl, cur, snt, rfl, rfl, heq.1, heq.2.1, heq.2.2.1, heq.2.2.2⟩
          simp [reconcileOne, hc, hsnt, if_pos heq, alistGet_erase_self]
        · left; simp [reconcileOne, hc, hsnt, if_neg heq]
  · left
    cases hc : alistGet maps.positions id' with
    | none => simp [reconcileOne, hc]
    | some cur =>
      cases hsnt : alistGet sentP id' with
      | none => simp [reconcileOne, hc, hsnt]
      | some snt =>
        by_cases heq : cur.x = snt.x ∧ cur.y = snt.y ∧ cur.w = snt.w ∧ cur.h = snt.h
        · simp [reconcileOne, hc, hsnt, if_pos heq, alistGet_erase_ne _ _ _ hid]
        · simp [reconcileOne, hc, hsnt, if_neg heq]

theorem reconcileOne_content_get (sentP : List (String × Pos))
    (sentC : List (String × ContentFields)) (maps : DirtyMaps) (id' id : String) :
    alistGet (reconcileOne sentP sentC maps id').content id = alistGet maps.content id
    ∨ (alistGet (reconcileOne sentP sentC maps id').content id = none
       ∧ id' = id
       ∧ ∃ cur snt, alistGet maps.content id = some cur ∧ alistGet sentC id = some snt
         ∧ contentClean snt cur = true) := by
  by_cases hid : id' = id
  · subst hid
    cases hc : alistGet maps.content id' with
    | none => left; simp [reconcileOne, hc]
    | some cur =>
      cases hsnt : alistGet sentC id' with
      | none => left; simp [reconcileOne, hc, hsnt]
      | some snt =>
        by_cases heq : contentClean snt cur = true
        · right
          refine ⟨?_, rfl, cur, snt, rfl, rfl, heq⟩
          simp [reconcileOne, hc, hsnt, heq, alistGet_erase_self]
        · left; simp [reconcileOne, hc, hsnt, heq]
  · left
    cases hc : alistGet maps.content id' with
    | none => simp [reconcileOne, hc]
    | some cur =>
      cases hsnt : alistGet sentC id' with
      | none => simp [reconcileOne, hc, hsnt]
      | some snt =>
        by_cases heq : contentClean snt cur = true
        · simp [reconcileOne, hc, hsnt, heq, alistGet_erase_ne _ _ _ hid]
        · simp [reconcileOne, hc, hsnt, heq]

theorem reconcile_pos_get (savedIds : List String) (sentP : List (String × Pos))
    (sentC : List (String × ContentFields)) (maps : DirtyMaps) (id : String) :
    alistGet (reconcile savedIds sentP sentC maps).positions id = alistGet maps.positions id
    ∨ (alistGet (reconcile savedIds sentP sentC maps).positions id = none
       ∧ id ∈ savedIds
       ∧ ∃ cur snt, alistGet maps.positions id = some cur ∧ alistGet sentP id = some snt
         ∧ cur.x = snt.x ∧ cur.y = snt.y ∧ cur.w = snt.w ∧ cur.h = snt.h) := by
  induction savedIds generalizing maps with
  | nil => left; rfl
  | cons id' rest ih =>
    have hrec : reconcile (id' :: rest) sentP sentC maps
        = reconcile rest sentP sentC (reconcileOne sentP sentC maps id') := rfl
    rw [hrec]
    rcases ih (reconcileOne sentP sentC maps id') with h |
      ⟨hnone, hmem, cur, snt, hc, hsnt, hx, hy, hw, hh⟩
    · rw [h]
      rcases reconcileOne_pos_get sentP sentC maps id' id with h2 |
        ⟨hnone, hid, cur, snt, hc, hsnt, hx, hy, hw, hh⟩
      · left; exact h2
      · right; exact ⟨hnone, by simp [← hid], cur, snt, hc, hsnt, hx, hy, hw, hh⟩
    · rcases reconcileOne_pos_get sentP sentC maps id' id with h2 |
        ⟨hnone2, hid2, cur2, snt2, hc2, hsnt2, hx2, hy2, hw2, hh2⟩
      · rw [h2] at hc
        exact Or.inr ⟨hnone, List.mem_cons_of_mem _ hmem, cur, snt, hc, hsnt, hx, hy, hw, hh⟩
      · rw [hnone2] at hc
        exact absurd hc (by simp)

theorem reconcile_content_get (savedIds : List String) (sentP : List (String × Pos))
    (sentC : List (String × ContentFields)) (maps : DirtyMaps) (id : String) :
    alistGet (reconcile savedIds sentP sentC maps).content id = alistGet maps.content id
    ∨ (alistGet (reconcile savedIds sentP sentC maps).content id = none
       ∧ id ∈ savedIds
       ∧ ∃ cur snt, alistGet maps.content id = some cur ∧ alistGet sentC id = some snt
         ∧ contentClean snt cur = true) := by
  induction savedIds generalizing maps with
  | nil => left; rfl
  | cons id' rest ih =>
    have hrec : reconcile (id' :: rest) sentP sentC maps
        = reconcile rest sentP sentC (reconcileOne sentP sentC maps id') := rfl
    rw [hrec]
    rcases ih (reconcileOne sentP sentC maps id') with h |
      ⟨hnone, hmem, cur, snt, hc, hsnt, hclean⟩
    · rw [h]
      rcases reconcileOne_content_get sentP sentC maps id' id with h2 |
        ⟨hnone, hid, cur, snt, hc, hsnt, hclean⟩
      · left; exact h2
      · right; exact ⟨hnone, by simp [← hid], cur, snt, hc, hsnt, hclean⟩
    · rcases reconcileOne_content_get sentP sentC maps id' id with h2 |
        ⟨hnone2, hid2, cur2, snt2, hc2, hsnt2, hclean2⟩
      · rw [h2] at hc
        exact Or.inr ⟨hnone, List.mem_cons_of_mem _ hmem, cur, snt, hc, hsnt, hclean⟩
      · rw [hnone2] at hc
        exact absurd hc (by simp)

theorem contentClean_iff (snt cur : ContentFields) :
    contentClean snt cur = true ↔ ∀ kv ∈ snt, alistGet cur kv.1 = some kv.2 := by
  simp [contentClean, List.all_eq_true]

theorem flushAllDirty_ok_maps (st : ClientState) (edits : List Edit)
    (savedIds : List String) (hasErrors : Bool) (hs : st.saving = false)
    (hne : ¬(st.maps.positions = [] ∧ st.maps.content = [])) :
    (flushAllDirty st edits (.ok savedIds hasErrors)).maps
      = reconcile savedIds st.maps.positions st.maps.content (applyEdits st.maps edits) := by
  rw [flushAllDirty, if_neg hne]
  cases hasErrors <;> simp [hs]

/-! ## Client claims -/

/-- C1: for every note id reported as succeeded, `flushAllDirty` removes the
id's `dirtyPositions` entry only when the current x, y, w, h all equal the
snapshot that was sent, and removes the id's `dirtyContent` entry only when
every field that was sent still has its sent value in the current entry;
retained entries keep their current value, so an entry whose value changed
during the in-flight request is never cleared. -/
theorem claim_C1_flush_clears_only_unchanged (st : ClientState) (edits : List Edit)
    (savedIds : List String) (hasErrors : Bool) (hs : st.saving = false)
    (hne : ¬(st.maps.positions = [] ∧ st.maps.content = [])) :
    (∀ id,
      alistGet (flushAllDirty st edits (.ok savedIds hasErrors)).maps.positions id
          = alistGet (applyEdits st.maps edits).positions id
      ∨ (alistGet (flushAllDirty st edits (.ok savedIds hasErrors)).maps.positions id = none
         ∧ id ∈ savedIds
         ∧ ∃ cur snt, alistGet (applyEdits st.maps edits).positions id = some cur
             ∧ alistGet st.maps.positions id = some snt
             ∧ cur.x = snt.x ∧ cur.y = snt.y ∧ cur.w = snt.w ∧ cur.h = snt.h))
    ∧ (∀ id,
      alistGet (flushAllDirty st edits (.ok savedIds hasErrors)).maps.content id
          = alistGet (applyEdits st.maps edits).content id
      ∨ (alistGet (flushAllDirty st edits (.ok savedIds hasErrors)).maps.content id = none
         ∧ id ∈ savedIds
         ∧ ∃ cur snt, alistGet (applyEdits st.maps edits).content id = some cur
             ∧ alistGet st.maps.content id = some snt
             ∧ ∀ kv ∈ snt, alistGet cur kv.1 = some kv.2)) := by
  constructor
  · intro id
    rw [flushAllDirty_ok_maps st edits savedIds hasErrors hs hne]
    exact reconcile_pos_get savedIds st.maps.positions st.maps.content
      (applyEdits st.maps edits) id
  · intro id
    rw [flushAllDirty_ok_maps st edits savedIds hasErrors hs hne]
    rcases reconcile_content_get savedIds st.maps.positions st.maps.content
        (applyEdits st.maps edits) id with h | ⟨h1, h2, cur, snt, hc, hsnt, hclean⟩
    · left; exact h
    · right; exact ⟨h1, h2, cur, snt, hc, hsnt, (contentClean_iff snt cur).mp hclean⟩

/-- Witness for C1 at a concrete flush: one position entry and one content
entry, unchanged during the request, succeed and are reconciled. -/
theorem claim_C1_witness :
    alistGet (flushAllDirty ⟨⟨[("a", ⟨some 1, some 2, none, none⟩)],
          [("a", [("Anteckningar", "hi")])]⟩, false, 0⟩ [] (.ok ["a"] false)).maps.positions "a"
        = alistGet (applyEdits ⟨[("a", ⟨some 1, some 2, none, none⟩)],
          [("a", [("Anteckningar", "hi")])]⟩ []).positions "a"
    ∨ (alistGet (flushAllDirty ⟨⟨[("a", ⟨some 1, some 2, none, none⟩)],
          [("a", [("Anteckningar", "hi")])]⟩, false, 0⟩ [] (.ok ["a"] false)).maps.positions "a" = none
       ∧ "a" ∈ ["a"]
       ∧ ∃ cur snt, alistGet (applyEdits ⟨[("a", ⟨some 1, some 2, none, none⟩)],
             [("a", [("Anteckningar", "hi")])]⟩ []).positions "a" = some cur
           ∧ alistGet [("a", (⟨some 1, some 2, none, none⟩ : Pos))] "a" = some snt
           ∧ cur.x = snt.x ∧ cur.y = snt.y ∧ cur.w = snt.w ∧ cur.h = snt.h) :=
  (claim_C1_flush_clears_only_unchanged
    ⟨⟨[("a", ⟨some 1, some 2, none, none⟩)], [("a", [("Anteckningar", "hi")])]⟩, false, 0⟩
    [] ["a"] false rfl (by simp)).1 "a"

/-- C2: if the batch request throws, the failed flush removes and alters no
dirty entry: afterwards the ledger is exactly the snapshot plus the edits
made during the request, the dirty state is persisted, and the saving flag
is cleared. -/
theorem claim_C2_failed_flush_preserves_dirty (st : ClientState) (edits : List Edit)
    (hs : st.saving = false)
    (hne : ¬(st.maps.positions = [] ∧ st.maps.content = [])) :
    (flushAllDirty st edits .threw).maps = applyEdits st.maps edits
    ∧ (flushAllDirty st edits .threw).saving = false
    ∧ (flushAllDirty st edits .threw).persisted = true := by
  rw [flushAllDirty, if_neg hne]
  simp [hs]

/-- Witness for C2: a concrete failed flush with an edit during the request. -/
theorem claim_C2_witness :
    (flushAllDirty ⟨⟨[("a", ⟨some 1, some 2, none, none⟩)], []⟩, false, 2⟩
        [Edit.dragEnd "a" 5 6] .threw).maps
      = applyEdits ⟨[("a", ⟨some 1, some 2, none, none⟩)], []⟩ [Edit.dragEnd "a" 5 6]
    ∧ (flushAllDirty ⟨⟨[("a", ⟨some 1, some 2, none, none⟩)], []⟩, false, 2⟩
        [Edit.dragEnd "a" 5 6] .threw).saving = false
    ∧ (flushAllDirty ⟨⟨[("a", ⟨some 1, some 2, none, none⟩)], []⟩, false, 2⟩
        [Edit.dragEnd "a" 5 6] .threw).persisted = true :=
  claim_C2_failed_flush_preserves_dirty
    ⟨⟨[("a", ⟨some 1, some 2, none, none⟩)], []⟩, false, 2⟩
    [Edit.dragEnd "a" 5 6] rfl (by simp)

/-- C5 counterexample: invoking `flushAllDirty` while `saving` is true but
with both dirty maps empty returns at the empty-ledger guard, which runs
before the busy-flag check: no request is sent and the maps and flag are
left unchanged, but the sync timer is NOT rescheduled, contradicting the
claim that every invocation with `saving = true` reschedules. -/
theorem claim_C5_counterexample :
    (flushAllDirty ⟨⟨[], []⟩, true, 0⟩ [] .threw).sentRequest = false
    ∧ (flushAllDirty ⟨⟨[], []⟩, true, 0⟩ [] .threw).maps = ⟨[], []⟩
    ∧ (flushAllDirty ⟨⟨[], []⟩, true, 0⟩ [] .threw).saving = true
    ∧ ¬((flushAllDirty ⟨⟨[], []⟩, true, 0⟩ [] .threw).rescheduled = true) := by
  decide

/-- C5 (amended): if `flushAllDirty` is invoked while a flush is in flight
(`saving = true`) and at least one dirty entry is pending, it sends no
request, leaves both dirty maps, the saving flag and the failure counter
unchanged, and reschedules the sync timer. -/
theorem claim_C5_amended_busy_flush_reschedules (st : ClientState) (edits : List Edit)
    (outcome : BatchOutcome) (hs : st.saving = true)
    (hne : ¬(st.maps.positions = [] ∧ st.maps.content = [])) :
    (flushAllDirty st edits outcome).sentRequest = false
    ∧ (flushAllDirty st edits outcome).maps = st.maps
    ∧ (flushAllDirty st edits outcome).saving = st.saving
    ∧ (flushAllDirty st edits outcome).failures = st.failures
    ∧ (flushAllDirty st edits outcome).rescheduled = true := by
  rw [flushAllDirty, if_neg hne]
  simp [hs]

/-- Witness for the amended C5 at a concrete busy state with a pending
position entry. -/
theorem claim_C5_witness :
    (flushAllDirty ⟨⟨[("a", ⟨some 1, none, none, none⟩)], []⟩, true, 1⟩ [] .threw).sentRequest = false
    ∧ (flushAllDirty ⟨⟨[("a", ⟨some 1, none, none, none⟩)], []⟩, true, 1⟩ [] .threw).maps
        = ⟨[("a", ⟨some 1, none, none, none⟩)], []⟩
    ∧ (flushAllDirty ⟨⟨[("a", ⟨some 1, none, none, none⟩)], []⟩, true, 1⟩ [] .threw).saving = true
    ∧ (flushAllDirty ⟨⟨[("a", ⟨some 1, none, none, none⟩)], []⟩, true, 1⟩ [] .threw).failures = 1
    ∧ (flushAllDirty ⟨⟨[("a", ⟨some 1, none, none, none⟩)], []⟩, true, 1⟩ [] .threw).rescheduled = true :=
  claim_C5_amended_busy_flush_reschedules
    ⟨⟨[("a", ⟨some 1, none, none, none⟩)], []⟩, true, 1⟩ [] .threw rfl (by simp)

/-- C6: the safety timeout is 30000 ms, and when it fires while a request is
still outstanding (`saving` still true) it clears the saving flag, persists
the dirty state, and either reschedules a sync (while the failure budget
remains) or asks for a manual retry. -/
theorem claim_C6_timeout_unblocks (st : ClientState) (hs : st.saving = true) :
    SAVE_TIMEOUT_MS = 30000
    ∧ (saveTimeoutHandler st).saving = false
    ∧ (saveTimeoutHandler st).persisted = true
    ∧ ((saveTimeoutHandler st).rescheduled = true ↔ st.failures + 1 < MAX_SYNC_RETRIES)
    ∧ ((saveTimeoutHandler st).status = some .timeoutManual
        ↔ ¬(st.failures + 1 < MAX_SYNC_RETRIES)) := by
  refine ⟨rfl, ?_, ?_, ?_, ?_⟩
  · simp [saveTimeoutHandler, hs]
  · simp [saveTimeoutHandler, hs]
  · simp [saveTimeoutHandler, hs]
  · by_cases hc : st.failures + 1 < MAX_SYNC_RETRIES <;> simp [saveTimeoutHandler, hs, hc]

/-- Witness for C6 at a concrete hung flush with two prior failures. -/
theorem claim_C6_witness :
    SAVE_TIMEOUT_MS = 30000
    ∧ (saveTimeoutHandler ⟨⟨[], []⟩, true, 2⟩).saving = false
    ∧ (saveTimeoutHandler ⟨⟨[], []⟩, true, 2⟩).persisted = true
    ∧ ((saveTimeoutHandler ⟨⟨[], []⟩, true, 2⟩).rescheduled = true ↔ 2 + 1 < MAX_SYNC_RETRIES)
    ∧ ((saveTimeoutHandler ⟨⟨[], []⟩, true, 2⟩).status = some .timeoutManual
        ↔ ¬(2 + 1 < MAX_SYNC_RETRIES)) :=
  claim_C6_timeout_unblocks ⟨⟨[], []⟩, true, 2⟩ rfl

/-- C7: `MAX_SYNC_RETRIES` is 3; once a flush failure (thrown request,
partial errors, or timeout) brings the consecutive-failure count to the
budget, the engine does not reschedule and only shows the
click-save-to-retry message; drag, resize and content edits and the manual
save button reset the counter to 0, and the manual save runs a flush. -/
theorem claim_C7_retry_budget :
    MAX_SYNC_RETRIES = 3
    ∧ (∀ st edits, st.saving = false →
        ¬(st.maps.positions = [] ∧ st.maps.content = []) →
        MAX_SYNC_RETRIES ≤ st.failures + 1 →
        (flushAllDirty st edits .threw).rescheduled = false
        ∧ (flushAllDirty st edits .threw).status = some .manualRetry)
    ∧ (∀ st edits savedIds, st.saving = false →
        ¬(st.maps.positions = [] ∧ st.maps.content = []) →
        MAX_SYNC_RETRIES ≤ st.failures + 1 →
        (flushAllDirty st edits (.ok savedIds true)).rescheduled = false
        ∧ (flushAllDirty st edits (.ok savedIds true)).status = some .partialManual)
    ∧ (∀ st, st.saving = true → MAX_SYNC_RETRIES ≤ st.failures + 1 →
        (saveTimeoutHandler st).rescheduled = false
        ∧ (saveTimeoutHandler st).status = some .timeoutManual)
    ∧ (∀ st id x y, (onDragEnd st id x y).failures = 0)
    ∧ (∀ st id w h, (onResizeEnd st id w h).failures = 0)
    ∧ (∀ st id fields, (debounceSaveContent st id fields).failures = 0)
    ∧ (∀ st edits outcome,
        saveAll st edits outcome = flushAllDirty { st with failures := 0 } edits outcome) := by
  refine ⟨rfl, ?_, ?_, ?_, fun st id x y => rfl, fun st id w h => rfl,
    fun st id fields => rfl, fun st edits outcome => rfl⟩
  · intro st edits hs hne hge
    rw [flushAllDirty, if_neg hne]
    have hlt : ¬(st.failures + 1 < MAX_SYNC_RETRIES) := by omega
    simp [hs, hlt]
  · intro st edits savedIds hs hne hge
    rw [flushAllDirty, if_neg hne]
    have hlt : ¬(st.failures + 1 < MAX_SYNC_RETRIES) := by omega
    simp [hs, hlt]
  · intro st hs hge
    have hlt : ¬(st.failures + 1 < MAX_SYNC_RETRIES) := by omega
    simp [saveTimeoutHandler, hs, hlt]

/-- Witness for C7: the third consecutive thrown flush stops rescheduling,
and a content edit resets the counter. -/
theorem claim_C7_witness :
    (flushAllDirty ⟨⟨[("a", ⟨some 1, none, none, none⟩)], []⟩, false, 2⟩ [] .threw).rescheduled = false
    ∧ (debounceSaveContent ⟨⟨[], []⟩, false, 2⟩ "a" [("Anteckningar", "x")]).failures = 0 :=
  ⟨(claim_C7_retry_budget.2.1 ⟨⟨[("a", ⟨some 1, none, none, none⟩)], []⟩, false, 2⟩
      [] rfl (by simp) (by decide)).1,
    claim_C7_retry_budget.2.2.2.2.2.2.1 ⟨⟨[], []⟩, false, 2⟩ "a" [("Anteckningar", "x")]⟩

/-! ## Server model (`server.js`)

The proxy talks to Airtable.  Upstream requests are modelled as oracles
passed to the handlers; each handler result records the list of upstream
calls it actually made, so "no upstream call" is observable. -/

/-- An Airtable error as the proxy sees it: HTTP status (0 when the
failure carries no status, i.e. a falsy `err.status`) and a message. -/
structure AirErr where
  status : Nat
  body : String
deriving DecidableEq, Repr

/-- The upstream Airtable operations the password-gated routes can make. -/
inductive UpstreamCall
  | fetchRecord (id : String)
  | deleteRecord (id : String)
deriving DecidableEq, Repr

/-- Response of `POST /api/notes/:id/unlock`. -/
structure UnlockResponse where
  status : Nat
  content : Option String
  upstreamCalls : List UpstreamCall
deriving DecidableEq, Repr

/-- `POST /api/notes/:id/unlock` from `server.js`: reject with 403 unless
the password equals `NOTE_PASSWORD`, otherwise fetch the record and return
its `Anteckningar` field (empty string when the field is falsy).  The
`upstream` oracle is the fetched field on success, or the upstream error. -/
def unlockHandler (notePassword password : Option String) (noteId : String)
    (upstream : Except AirErr (Option String)) : UnlockResponse :=
  if password ≠ notePassword then
    { status := 403, content := none, upstreamCalls := [] }
  else
    match upstream with
    | .ok fieldValue =>
      { status := 200, content := some (fieldValue.getD ""),
        upstreamCalls := [.fetchRecord noteId] }
    | .error e =>
      { status := if e.status = 0 then 500 else e.status, content := none,
        upstreamCalls := [.fetchRecord noteId] }

/-- Response of `DELETE /api/notes/:id`. -/
structure DeleteResponse where
  status : Nat
  deleted : Bool
  upstreamCalls : List UpstreamCall
deriving DecidableEq, Repr

/-- `DELETE /api/notes/:id` from `server.js`: reject with 403 unless the
password equals `NOTE_PASSWORD`, otherwise issue the upstream delete. -/
def deleteHandler (notePassword password : Option String) (noteId : String)
    (upstream : Except AirErr String) : DeleteResponse :=
  if password ≠ notePassword then
    { status := 403, deleted := false, upstreamCalls := [] }
  else
    match upstream with
    | .ok _ =>
      { status := 200, deleted := true, upstreamCalls := [.deleteRecord noteId] }
    | .error e =>
      { status := if e.status = 0 then 500 else e.status, deleted := false,
        upstreamCalls := [.deleteRecord noteId] }

/-- Response of `POST /api/verify-password`. -/
structure VerifyResponse where
  status : Nat
  valid : Bool
deriving DecidableEq, Repr

/-- `POST /api/verify-password` from `server.js`: `{valid: true}` with 200
when the password equals `NOTE_PASSWORD`, otherwise `{valid: false}` with
403.  It makes no upstream call at all. -/
def verifyPasswordHandler (notePassword password : Option String) : VerifyResponse :=
  if password = notePassword then
    { status := 200, valid := true }
  else
    { status := 403, valid := false }

/-- C3: whenever the supplied password differs from `NOTE_PASSWORD`, the
unlock and delete routes answer 403 and make no upstream Airtable call (so
the remote store is untouched), and `POST /api/verify-password` answers 403
with `valid: false` exactly when the password differs from `NOTE_PASSWORD`. -/
theorem claim_C3_password_fails_closed (notePassword password : Option String)
    (noteId : String) (upFetch : Except AirErr (Option String))
    (upDelete : Except AirErr String) :
    (password ≠ notePassword →
      (unlockHandler notePassword password noteId upFetch).status = 403
      ∧ (unlockHandler notePassword password noteId upFetch).upstreamCalls = []
      ∧ (deleteHandler notePassword password noteId upDelete).status = 403
      ∧ (deleteHandler notePassword password noteId upDelete).upstreamCalls = [])
    ∧ ((verifyPasswordHandler notePassword password).status = 403
        ∧ (verifyPasswordHandler notePassword password).valid = false
       ↔ password ≠ notePassword) := by
  by_cases h : password = notePassword
  · simp [unlockHandler, deleteHandler, verifyPasswordHandler, h]
  · simp [unlockHandler, deleteHandler, verifyPasswordHandler, h]

/-- Witness for C3: wrong password against concrete upstream oracles. -/
theorem claim_C3_witness :
    (unlockHandler (some "hemligt") (some "fel") "rec1" (.ok (some "secret text"))).status = 403
    ∧ (unlockHandler (some "hemligt") (some "fel") "rec1" (.ok (some "secret text"))).upstreamCalls = []
    ∧ (deleteHandler (some "hemligt") (some "fel") "rec1" (.ok "rec1")).status = 403
    ∧ (deleteHandler (some "hemligt") (some "fel") "rec1" (.ok "rec1")).upstreamCalls = []
    ∧ (verifyPasswordHandler (some "hemligt") (some "fel")).status = 403
    ∧ (verifyPasswordHandler (some "hemligt") (some "fel")).valid = false := by
  have h := claim_C3_password_fails_closed (some "hemligt") (some "fel") "rec1"
    (.ok (some "secret text")) (.ok "rec1")
  have h1 := h.1 (by simp)
  have h2 := h.2.mpr (by simp)
  exact ⟨h1.1, h1.2.1, h1.2.2.1, h1.2.2.2, h2.1, h2.2⟩

/-! ## Batch update chunking (`handleBatchUpdate`) -/

/-- A record in a batch request: Airtable record id plus the fields to
patch. -/
structure BatchRec where
  id : String
  fields : List (String × String)
deriving DecidableEq, Repr

/-- One entry of the `errors` array of the batch response: the ids of the
failed chunk and the extracted error reason. -/
structure ChunkError where
  ids : List String
  error : String
deriving DecidableEq, Repr

/-- Result of `handleBatchUpdate`: the JSON response (`records`, `errors`)
plus the trace of upstream PATCH payloads issued, in order. -/
structure BatchRunResult where
  records : List BatchRec
  errors : List ChunkError
  calls : List (List BatchRec)
deriving DecidableEq, Repr

/-- Consecutive chunks of at most ten records, in order
(`records.slice(i, i + 10)` for `i = 0, 10, 20, ...`). -/
def chunksOf10 {α : Type} : List α → List (List α)
  | [] => []
  | a :: as => ((a :: as).take 10) :: chunksOf10 (as.drop 9)
termination_by l => l.length
decreasing_by
  rw [List.length_drop]
  simp
  omega

/-- The chunk loop of `handleBatchUpdate` in `server.js`, starting at chunk
index `i`: slice off up to ten records, attempt one upstream write for the
slice, collect succeeded records or a per-chunk error entry, and continue
with the rest regardless of the outcome.  `upstream i batch` is the result
of the upstream write for the `i`-th chunk. -/
def runBatch (upstream : Nat → List BatchRec → Except String (List BatchRec)) :
    Nat → List BatchRec → BatchRunResult
  | _, [] => { records := [], errors := [], calls := [] }
  | i, a :: as =>
    let batch := (a :: as).take 10
    let rest := runBatch upstream (i + 1) (as.drop 9)
    match upstream i batch with
    | .ok recs =>
      { records := recs ++ rest.records, errors := rest.errors,
        calls := batch :: rest.calls }
    | .error e =>
      { records := rest.records,
        errors := { ids := batch.map (fun b => b.id), error := e } :: rest.errors,
        calls := batch :: rest.calls }
termination_by _ l => l.length
decreasing_by
  rw [List.length_drop]
  simp
  omega

/-- `handleBatchUpdate` from `server.js`: the chunk loop started at index
zero. -/
def handleBatchUpdate (upstream : Nat → List BatchRec → Except String (List BatchRec))
    (records : List BatchRec) : BatchRunResult :=
  runBatch upstream 0 records

/-- Pair each element with its index, starting at `i`. -/
def withIdx {α : Type} : Nat → List α → List (Nat × α)
  | _, [] => []
  | i, a :: as => (i, a) :: withIdx (i + 1) as

theorem chunksOf10_flatten_aux {α : Type} :
    ∀ (n : Nat) (l : List α), l.length ≤ n → (chunksOf10 l).flatten = l := by
  intro n
  induction n with
  | zero =>
    intro l hl
    have h0 : l = [] := List.length_eq_zero.mp (Nat.le_zero.mp hl)
    subst h0
    simp [chunksOf10]
  | succ n ih =>
    intro l hl
    cases l with
    | nil => simp [chunksOf10]
    | cons a as =>
      have hdrop : (as.drop 9).length ≤ n := by
        rw [List.length_drop]
        simp at hl
        omega
      simp only [chunksOf10, List.flatten_cons]
      rw [ih (as.drop 9) hdrop]
      have hdd : as.drop 9 = (a :: as).drop 10 := rfl
      rw [hdd]
      exact List.take_append_drop 10 (a :: as)

theorem chunksOf10_flatten {α : Type} (l : List α) : (chunksOf10 l).flatten = l :=
  chunksOf10_flatten_aux l.length l (Nat.le_refl _)

theorem chunksOf10_length_aux {α : Type} :
    ∀ (n : Nat) (l : List α), l.length ≤ n →
      (chunksOf10 l).length = (l.length + 9) / 10 := by
  intro n
  induction n with
  | zero =>
    intro l hl
    have h0 : l = [] := List.length_eq_zero.mp (Nat.le_zero.mp hl)
    subst h0
    simp [chunksOf10]
  | succ n ih =>
    intro l hl
    cases l with
    | nil => simp [chunksOf10]
    | cons a as =>
      have hdrop : (as.drop 9).length ≤ n := by
        rw [List.length_drop]
        simp at hl
        omega
      simp only [chunksOf10, List.length_cons]
      rw [ih (as.drop 9) hdrop, List.length_drop]
      omega

theorem chunksOf10_length {α : Type} (l : List α) :
    (chunksOf10 l).length = (l.length + 9) / 10 :=
  chunksOf10_length_aux l.length l (Nat.le_refl _)

theorem chunksOf10_le_aux {α : Type} :
    ∀ (n : Nat) (l : List α), l.length ≤ n →
      ∀ c ∈ chunksOf10 l, c.length ≤ 10 := by
  intro n
  induction n with
  | zero =>
    intro l hl
    have h0 : l = [] := List.length_eq_zero.mp (Nat.le_zero.mp hl)
    subst h0
    simp [chunksOf10]
  | succ n ih =>
    intro l hl
    cases l with
    | nil => simp [chunksOf10]
    | cons a as =>
      have hdrop : (as.drop 9).length ≤ n := by
        rw [List.length_drop]
        simp at hl
        omega
      intro c hc
      rw [chunksOf10] at hc
      rcases List.mem_cons.mp hc with hc | hc
      · subst hc
        rw [List.length_take]
        omega
      · exact ih (as.drop 9) hdrop c hc

theorem runBatch_spec_aux (up : Nat → List BatchRec → Except String (List BatchRec)) :
    ∀ (n : Nat) (i : Nat) (l : List BatchRec), l.length ≤ n →
      runBatch up i l =
        { records := ((withIdx i (chunksOf10 l)).filterMap
            fun p => (up p.1 p.2).toOption).flatten
          errors := (withIdx i (chunksOf10 l)).filterMap
            (fun p => match up p.1 p.2 with
              | .ok _ => none
              | .error e => some { ids := p.2.map (fun b => b.id), error := e })
          calls := chunksOf10 l } := by
  intro n
  induction n with
  | zero =>
    intro i l hl
    have h0 : l = [] := List.length_eq_zero.mp (Nat.le_zero.mp hl)
    subst h0
    simp [runBatch, chunksOf10, withIdx]
  | succ n ih =>
    intro i l hl
    cases l with
    | nil => simp [runBatch, chunksOf10, withIdx]
    | cons a as =>
      have hdrop : (as.drop 9).length ≤ n := by
        rw [List.length_drop]
        simp at hl
        omega
      rw [runBatch]
      simp only [chunksOf10, withIdx]
      rw [ih (i + 1) (as.drop 9) hdrop]
      simp only [List.filterMap_cons]
      generalize List.take 10 (a :: as) = batch
      cases hup : up i batch with
      | ok recs => simp [hup, Except.toOption]
      | error e => simp [hup, Except.toOption]

/-- C4: the batch endpoint splits the request into consecutive chunks of at
most ten records, issues exactly one upstream write per chunk, in order
(so ceil(N/10) writes covering exactly the input), answers with the
concatenation of the succeeded chunks' records and one error entry per
failed chunk carrying that chunk's ids and the error reason, and the
sequence of upstream writes does not depend on the outcomes, so a chunk
failure never prevents later chunks from being attempted. -/
theorem claim_C4_batch_chunking
    (up up2 : Nat → List BatchRec → Except String (List BatchRec))
    (records : List BatchRec) :
    (handleBatchUpdate up records).calls = chunksOf10 records
    ∧ (handleBatchUpdate up records).calls.length = (records.length + 9) / 10
    ∧ (handleBatchUpdate up records).calls.flatten = records
    ∧ (∀ c ∈ (handleBatchUpdate up records).calls, c.length ≤ 10)
    ∧ (handleBatchUpdate up records).records
        = ((withIdx 0 (chunksOf10 records)).filterMap
            fun p => (up p.1 p.2).toOption).flatten
    ∧ (handleBatchUpdate up records).errors
        = (withIdx 0 (chunksOf10 records)).filterMap
            (fun p => match up p.1 p.2 with
              | .ok _ => none
              | .error e => some { ids := p.2.map (fun b => b.id), error := e })
    ∧ (handleBatchUpdate up records).calls = (handleBatchUpdate up2 records).calls := by
  have h1 := runBatch_spec_aux up records.length 0 records (Nat.le_refl _)
  have h2 := runBatch_spec_aux up2 records.length 0 records (Nat.le_refl _)
  rw [handleBatchUpdate, h1]
  refine ⟨rfl, ?_, ?_, ?_, rfl, rfl, ?_⟩
  · exact chunksOf10_length records
  · exact chunksOf10_flatten records
  · exact chunksOf10_le_aux records.length records (Nat.le_refl _)
  · rw [handleBatchUpdate, h2]

/-- Twelve records, so the batch splits into a chunk of ten and a chunk of
two. -/
def chunkDemo : List BatchRec :=
  [⟨"r0", []⟩, ⟨"r1", []⟩, ⟨"r2", []⟩, ⟨"r3", []⟩, ⟨"r4", []⟩, ⟨"r5", []⟩,
   ⟨"r6", []⟩, ⟨"r7", []⟩, ⟨"r8", []⟩, ⟨"r9", []⟩, ⟨"r10", []⟩, ⟨"r11", []⟩]

/-- Witness for C4: twelve records against an upstream that fails on the
first chunk; ceil(12/10) = 2 writes are issued and the first chunk is at
most ten records long. -/
theorem claim_C4_witness :
    (handleBatchUpdate (fun i c => if i = 0 then .error "boom" else .ok c)
        chunkDemo).calls.length = (chunkDemo.length + 9) / 10
    ∧ (chunkDemo.take 10).length ≤ 10 := by
  have h := claim_C4_batch_chunking
    (fun i c => if i = 0 then .error "boom" else .ok c)
    (fun _ c => .ok c) chunkDemo
  refine ⟨h.2.1, h.2.2.2.1 (chunkDemo.take 10) ?_⟩
  rw [h.1]
  unfold chunkDemo
  simp only [chunksOf10]
  exact List.mem_cons_self _ _

/-! ## Rate-limit retry (`airtableRequestWithRetry`) -/

/-- Delay before retrying after the failure of the given attempt:
`1000 * Math.pow(2, attempt)` ms. -/
def retryDelayMs (attempt : Nat) : Nat := 1000 * 2 ^ attempt

/-- The retry loop of `airtableRequestWithRetry` in `server.js`, from a
given attempt number: `oracle attempt` is the outcome of the underlying
`airtableRequest` for that attempt.  Returns the propagated result and the
list of backoff delays slept, in order.  A 429 error with attempts left
sleeps and retries; anything else propagates at once. -/
def retryLoop {α : Type} (oracle : Nat → Except AirErr α) (retries attempt : Nat) :
    Except AirErr α × List Nat :=
  match oracle attempt with
  | .ok v => (.ok v, [])
  | .error e =>
    if h : e.status = 429 ∧ attempt < retries then
      ((retryLoop oracle retries (attempt + 1)).1,
        retryDelayMs attempt :: (retryLoop oracle retries (attempt + 1)).2)
    else (.error e, [])
termination_by retries + 1 - attempt
decreasing_by
  omega

/-- `airtableRequestWithRetry` with the default `retries = 3`. -/
def airtableRequestWithRetry {α : Type} (oracle : Nat → Except AirErr α) :
    Except AirErr α × List Nat :=
  retryLoop oracle 3 0

/-- The attempt got a rate-limit (429) error. -/
def is429 {α : Type} : Except AirErr α → Prop
  | .error e => e.status = 429
  | .ok _ => False

theorem retryLoop_step {α : Type} (oracle : Nat → Except AirErr α)
    (retries attempt : Nat) (h : is429 (oracle attempt)) (hlt : attempt < retries) :
    retryLoop oracle retries attempt
      = ((retryLoop oracle retries (attempt + 1)).1,
          retryDelayMs attempt :: (retryLoop oracle retries (attempt + 1)).2) := by
  cases ho : oracle attempt with
  | ok v =>
    rw [ho] at h
    exact absurd h (by simp [is429])
  | error e =>
    have h429 : e.status = 429 := by
      rw [ho] at h
      exact h
    rw [retryLoop, ho]
    simp [h429, hlt]

theorem retryLoop_stop {α : Type} (oracle : Nat → Except AirErr α)
    (retries attempt : Nat) (e : AirErr) (ho : oracle attempt = .error e)
    (h : ¬(e.status = 429 ∧ attempt < retries)) :
    retryLoop oracle retries attempt = (.error e, []) := by
  rw [retryLoop, ho]
  simp [h]

/-- C9: a 429 failure is retried with exponentially increasing delays of
1000, 2000 and 4000 ms, up to three retries, after which the fourth
attempt's error propagates; a non-429 failure on the first attempt
propagates immediately with no retry and no delay. -/
theorem claim_C9_rate_limit_backoff {α : Type} (oracle : Nat → Except AirErr α) :
    (∀ e, oracle 0 = .error e → e.status ≠ 429 →
      airtableRequestWithRetry oracle = (.error e, []))
    ∧ ((∀ i, i ≤ 3 → is429 (oracle i)) →
      airtableRequestWithRetry oracle = (oracle 3, [1000, 2000, 4000])) := by
  constructor
  · intro e h0 hne
    exact retryLoop_stop oracle 3 0 e h0 (by simp [hne])
  · intro hall
    have h0 := retryLoop_step oracle 3 0 (hall 0 (by omega)) (by omega)
    have h1 := retryLoop_step oracle 3 1 (hall 1 (by omega)) (by omega)
    have h2 := retryLoop_step oracle 3 2 (hall 2 (by omega)) (by omega)
    have h3 : retryLoop oracle 3 3 = (oracle 3, []) := by
      have h429 := hall 3 (by omega)
      cases ho : oracle 3 with
      | ok v =>
        rw [ho] at h429
        exact absurd h429 (by simp [is429])
      | error e => exact ho ▸ retryLoop_stop oracle 3 3 e ho (by omega)
    rw [airtableRequestWithRetry, h0, h1, h2, h3]
    simp [retryDelayMs]

/-- Witness for C9: an always-rate-limited oracle exhausts the three
backoff delays, and an oracle failing with 500 propagates at once. -/
theorem claim_C9_witness :
    airtableRequestWithRetry (fun _ => (.error ⟨429, "rate limited"⟩ : Except AirErr Unit))
      = (.error ⟨429, "rate limited"⟩, [1000, 2000, 4000])
    ∧ airtableRequestWithRetry (fun _ => (.error ⟨500, "boom"⟩ : Except AirErr Unit))
      = (.error ⟨500, "boom"⟩, []) := by
  constructor
  · exact (claim_C9_rate_limit_backoff
      (fun _ => (.error ⟨429, "rate limited"⟩ : Except AirErr Unit))).2
      (fun i _ => by simp [is429])
  · exact (claim_C9_rate_limit_backoff
      (fun _ => (.error ⟨500, "boom"⟩ : Except AirErr Unit))).1
      ⟨500, "boom"⟩ rfl (by simp)

/-! ## List endpoint sanitization (`GET /api/notes`) -/

/-- A JavaScript field value as Airtable may return it. -/
inductive JVal
  | str (s : String)
  | boolean (b : Bool)
  | num (n : Int)
  | null
  | undef
deriving DecidableEq, Repr

/-- JavaScript truthiness of a field value. -/
def JVal.truthy : JVal → Bool
  | .str s => s != ""
  | .boolean b => b
  | .num n => n != 0
  | .null => false
  | .undef => false

/-- JavaScript `a || b`: the first operand when truthy, otherwise the
second. -/
def jsOr (a b : JVal) : JVal := if a.truthy then a else b

/-- The raw Airtable fields of one record, as read by `GET /api/notes`
(ASCII names for the Swedish field names: `omrade` is `Område`,
`anteckningar` is `Anteckningar`, `losenord` is `Lösenord`). -/
structure RawFields where
  omrade : JVal
  anteckningar : JVal
  posX : JVal
  posY : JVal
  sizeW : JVal
  sizeH : JVal
  losenord : JVal
  color : JVal
deriving DecidableEq, Repr

/-- A raw Airtable record. -/
structure RawRecord where
  id : String
  fields : RawFields
deriving DecidableEq, Repr

/-- The sanitized fields `GET /api/notes` responds with; `losenord` is the
coerced boolean `!!r.fields['Lösenord']`. -/
structure SanFields where
  omrade : JVal
  anteckningar : JVal
  posX : JVal
  posY : JVal
  sizeW : JVal
  sizeH : JVal
  losenord : Bool
  color : JVal
deriving DecidableEq, Repr

/-- A sanitized record of the list response. -/
structure SanRecord where
  id : String
  fields : SanFields
deriving DecidableEq, Repr

/-- The per-record sanitization map of `GET /api/notes` in `server.js`:
strip the content of password-protected notes server-side, default every
other field to the empty string when falsy. -/
def sanitizeRecord (r : RawRecord) : SanRecord :=
  { id := r.id
    fields :=
      { omrade := jsOr r.fields.omrade (.str "")
        anteckningar := if r.fields.losenord.truthy then .str ""
          else jsOr r.fields.anteckningar (.str "")
        posX := jsOr r.fields.posX (.str "")
        posY := jsOr r.fields.posY (.str "")
        sizeW := jsOr r.fields.sizeW (.str "")
        sizeH := jsOr r.fields.sizeH (.str "")
        losenord := r.fields.losenord.truthy
        color := jsOr r.fields.color (.str "") } }

/-- The full list response: the sanitization map over all fetched
records. -/
def sanitizeRecords (rs : List RawRecord) : List SanRecord :=
  rs.map sanitizeRecord

/-- Two raw records that agree on everything except possibly the stored
content, where they may differ only if the note is locked. -/
def eqExceptLockedContent (a b : RawRecord) : Prop :=
  a.id = b.id
  ∧ a.fields.omrade = b.fields.omrade
  ∧ a.fields.posX = b.fields.posX
  ∧ a.fields.posY = b.fields.posY
  ∧ a.fields.sizeW = b.fields.sizeW
  ∧ a.fields.sizeH = b.fields.sizeH
  ∧ a.fields.losenord = b.fields.losenord
  ∧ a.fields.color = b.fields.color
  ∧ (a.fields.anteckningar = b.fields.anteckningar ∨ a.fields.losenord.truthy = true)

/-- C10: the list response never contains the content of a locked note:
whenever `Lösenord` is truthy the sanitized `Anteckningar` is the empty
string, and two stores differing only in locked notes' contents yield
identical list responses. -/
theorem claim_C10_locked_content_stripped :
    (∀ r : RawRecord, r.fields.losenord.truthy = true →
      (sanitizeRecord r).fields.anteckningar = .str "")
    ∧ (∀ rs1 rs2 : List RawRecord, List.Forall₂ eqExceptLockedContent rs1 rs2 →
      sanitizeRecords rs1 = sanitizeRecords rs2) := by
  constructor
  · intro r hr
    simp [sanitizeRecord, hr]
  · intro rs1 rs2 hrel
    induction hrel with
    | nil => rfl
    | cons hab htl ih =>
      obtain ⟨hid, hom, hpx, hpy, hsw, hsh, hlos, hcol, hant⟩ := hab
      simp only [sanitizeRecords, List.map_cons]
      rw [sanitizeRecords] at ih
      rw [ih]
      rcases hant with hant | hlock
      · simp [sanitizeRecord, hid, hom, hpx, hpy, hsw, hsh, hlos, hcol, hant]
        rfl
      · simp [sanitizeRecord, hid, hom, hpx, hpy, hsw, hsh, hlos, hcol, hlock,
          hlos ▸ hlock]
        rfl

/-- Witness for C10: a locked record with stored content is stripped, and
two one-record stores with different locked contents give the same
response. -/
theorem claim_C10_witness :
    (sanitizeRecord ⟨"r1", ⟨.str "title", .str "secret", .str "10", .str "20",
        .undef, .undef, .boolean true, .str "#000080"⟩⟩).fields.anteckningar = .str ""
    ∧ sanitizeRecords [⟨"r1", ⟨.str "title", .str "secret one", .str "10", .str "20",
        .undef, .undef, .boolean true, .str "#000080"⟩⟩]
      = sanitizeRecords [⟨"r1", ⟨.str "title", .str "secret two", .str "10", .str "20",
        .undef, .undef, .boolean true, .str "#000080"⟩⟩] := by
  constructor
  · exact claim_C10_locked_content_stripped.1
      ⟨"r1", ⟨.str "title", .str "secret", .str "10", .str "20",
        .undef, .undef, .boolean true, .str "#000080"⟩⟩ rfl
  · exact claim_C10_locked_content_stripped.2 _ _
      (List.Forall₂.cons
        ⟨rfl, rfl, rfl, rfl, rfl, rfl, rfl, rfl, Or.inr rfl⟩
        List.Forall₂.nil)

/-! ## Crash recovery (`restoreDirtyState`) -/

/-- The staleness threshold of `restoreDirtyState`: 5 minutes in
milliseconds. -/
def STALE_MS : Int := 5 * 60 * 1000

/-- The parsed `notecanvas_dirty` localStorage record: the two mirrored
ledgers and the timestamp, any of which may be absent. -/
structure StoredDirty where
  positions : Option (List (String × Pos))
  content : Option (List (String × ContentFields))
  ts : Option Int
deriving DecidableEq, Repr

/-- The staleness test `ts && Date.now() - ts > 5 * 60 * 1000`: a present,
truthy (nonzero) timestamp more than five minutes in the past. -/
def dirtyStale (ts : Option Int) (now : Int) : Bool :=
  match ts with
  | some t => decide (t ≠ 0) && decide (now - t > STALE_MS)
  | none => false

/-- The restore loop of `restoreDirtyState`: copy each stored entry into
the live map unless the live map already has an entry for that id. -/
def restoreMerge {α : Type} (cur stored : List (String × α)) : List (String × α) :=
  stored.foldl
    (fun acc kv => if (alistGet acc kv.1).isSome then acc else alistSet acc kv.1 kv.2)
    cur

/-- Result of `restoreDirtyState`: the ledgers afterwards and whether the
localStorage record was removed. -/
structure RestoreResult where
  maps : DirtyMaps
  removedKey : Bool
deriving DecidableEq, Repr

/-- `restoreDirtyState` from `public/app.js`: nothing saved means no
change; a stale record is removed without touching the ledgers; otherwise
the stored entries are merged (live entries win) and the record is
removed. -/
def restoreDirtyState (saved : Option StoredDirty) (now : Int) (maps : DirtyMaps) :
    RestoreResult :=
  match saved with
  | none => { maps := maps, removedKey := false }
  | some sd =>
    if dirtyStale sd.ts now then { maps := maps, removedKey := true }
    else
      let pos' := match sd.positions with
        | some ps => restoreMerge maps.positions ps
        | none => maps.positions
      let con' := match sd.content with
        | some cs => restoreMerge maps.content cs
        | none => maps.content
      { maps := { positions := pos', content := con' }, removedKey := true }

theorem restoreMerge_get {α : Type} (stored cur : List (String × α)) (id : String) :
    alistGet (restoreMerge cur stored) id
      = (alistGet cur id).or (alistGet stored id) := by
  induction stored generalizing cur with
  | nil => simp [restoreMerge, alistGet]
  | cons kv rest ih =>
    obtain ⟨k, v⟩ := kv
    have hunfold : restoreMerge cur ((k, v) :: rest)
        = restoreMerge (if (alistGet cur k).isSome then cur else alistSet cur k v) rest :=
      rfl
    rw [hunfold, ih]
    by_cases hk : k = id
    · subst hk
      cases hc : alistGet cur k with
      | some c => simp [hc, alistGet]
      | none => simp [hc, alistGet_set_self, alistGet]
    · by_cases hs : (alistGet cur k).isSome
      · simp [hs, alistGet, hk]
      · simp [hs, alistGet, hk, alistGet_set_ne cur id k v hk]

/-- C8 counterexample: `restoreDirtyState` does NOT restore a fresh stored
entry whose id already has a live dirty entry: the live entry wins and the
stored value is discarded, contradicting the claim that in the non-stale
case "the stored entries are restored". -/
theorem claim_C8_counterexample :
    alistGet (restoreDirtyState
        (some ⟨some [("a", ⟨some 1, some 1, none, none⟩)], some [], some 100⟩)
        100 ⟨[("a", ⟨some 2, some 2, none, none⟩)], []⟩).maps.positions "a"
      = some ⟨some 2, some 2, none, none⟩
    ∧ ¬(alistGet (restoreDirtyState
        (some ⟨some [("a", ⟨some 1, some 1, none, none⟩)], some [], some 100⟩)
        100 ⟨[("a", ⟨some 2, some 2, none, none⟩)], []⟩).maps.positions "a"
      = some ⟨some 1, some 1, none, none⟩) := by
  decide

/-- C8 (amended): a present nonzero timestamp more than five minutes in
the past makes `restoreDirtyState` remove the stored record without
touching either ledger; otherwise the record is removed and each stored
entry is restored exactly for the ids that have no live dirty entry (the
live entry wins); with nothing stored, nothing happens. -/
theorem claim_C8_amended_restore (sd : StoredDirty) (now : Int) (maps : DirtyMaps) :
    (dirtyStale sd.ts now = true ↔ ∃ t, sd.ts = some t ∧ t ≠ 0 ∧ now - t > STALE_MS)
    ∧ (dirtyStale sd.ts now = true →
        restoreDirtyState (some sd) now maps = ⟨maps, true⟩)
    ∧ (dirtyStale sd.ts now = false →
        (restoreDirtyState (some sd) now maps).removedKey = true
        ∧ (∀ id, alistGet (restoreDirtyState (some sd) now maps).maps.positions id
            = (alistGet maps.positions id).or (alistGet (sd.positions.getD []) id))
        ∧ (∀ id, alistGet (restoreDirtyState (some sd) now maps).maps.content id
            = (alistGet maps.content id).or (alistGet (sd.content.getD []) id)))
    ∧ restoreDirtyState none now maps = ⟨maps, false⟩ := by
  refine ⟨?_, ?_, ?_, rfl⟩
  · cases hts : sd.ts with
    | none => simp [dirtyStale, hts]
    | some t => simp [dirtyStale, hts]
  · intro h
    simp [restoreDirtyState, h]
  · intro h
    refine ⟨by simp [restoreDirtyState, h], ?_, ?_⟩
    · intro id
      cases hp : sd.positions with
      | none => simp [restoreDirtyState, h, hp, alistGet]
      | some ps => simp [restoreDirtyState, h, hp, restoreMerge_get]
    · intro id
      cases hp : sd.content with
      | none => simp [restoreDirtyState, h, hp, alistGet]
      | some cs => simp [restoreDirtyState, h, hp, restoreMerge_get]

/-- Witness for the amended C8: a stale record is dropped whole, and a
fresh stored entry is restored into an empty ledger. -/
theorem claim_C8_witness :
    restoreDirtyState
        (some ⟨some [("a", ⟨some 1, none, none, none⟩)], some [], some 100⟩)
        500000 ⟨[], []⟩ = ⟨⟨[], []⟩, true⟩
    ∧ alistGet (restoreDirtyState
        (some ⟨some [("a", ⟨some 1, none, none, none⟩)], some [], some 100⟩)
        100 ⟨[], []⟩).maps.positions "a"
      = (alistGet ([] : List (String × Pos)) "a").or
          (alistGet [("a", (⟨some 1, none, none, none⟩ : Pos))] "a") := by
  have h1 := claim_C8_amended_restore
    ⟨some [("a", ⟨some 1, none, none, none⟩)], some [], some 100⟩ 500000 ⟨[], []⟩
  have h2 := claim_C8_amended_restore
    ⟨some [("a", ⟨some 1, none, none, none⟩)], some [], some 100⟩ 100 ⟨[], []⟩
  exact ⟨h1.2.1 (by decide), (h2.2.2.1 (by decide)).2.1 "a"⟩
